import Mathlib

/-!
Verification of the audio-recorder capture/mix engine (src/recorder.js and the
device-listing helper in the main process file).

Buffers are modelled as lists of bytes (`List Nat`, each element < 256), matching
Node `Buffer` contents.  `readInt16LE`/`writeInt16LE` are modelled at the byte
level; the JS `>>` operator on the sum of two int16 reads is modelled through
32-bit wrap-around (`toInt32`) followed by floor division by 2, which is exactly
what an arithmetic shift right by one performs.
-/

namespace AudioRecorder

/-- A Node `Buffer`: a sequence of bytes. -/
abbrev Buf := List Nat

/-- All elements of the buffer are actual bytes (< 256). -/
def ValidBuf (l : Buf) : Prop := ∀ x ∈ l, x < 256

instance : DecidablePred ValidBuf := fun l => List.decidableBAll _ l

/-- `Buffer.readInt16LE` of the two bytes `lo`, `hi`: little-endian unsigned
combination, sign-extended from 16 bits. -/
def toInt16LE (lo hi : Nat) : Int :=
  let u : Nat := lo + 256 * hi
  if u < 32768 then (u : Int) else (u : Int) - 65536

/-- `Buffer.writeInt16LE s`: the two bytes (little-endian) of `s` mod 2^16. -/
def int16ToBytes (s : Int) : Buf :=
  let u : Nat := (s % 65536).toNat
  [u % 256, u / 256]

/-- JS `ToInt32`: wrap an integer into the range `[-2^31, 2^31)`. -/
def toInt32 (x : Int) : Int :=
  (x + 2147483648) % 4294967296 - 2147483648

/-- JS `x >> 1`: `ToInt32` then arithmetic shift right by one, i.e. floor
division of the 32-bit value by 2. -/
def jsShr1 (x : Int) : Int := Int.fdiv (toInt32 x) 2

/-- The clamp in `mixInt16Stereo`: `if (s > 32767) s = 32767; else if
(s < -32768) s = -32768;`. -/
def clamp16 (s : Int) : Int :=
  if s > 32767 then 32767 else if s < -32768 then -32768 else s

/-- One loop iteration of `mixInt16Stereo`: read a sample from each buffer,
average via `(a + b) >> 1`, clamp. -/
def mixSample (a b : Int) : Int := clamp16 (jsShr1 (a + b))

/-- `mixInt16Stereo(bufA, bufB)`: iterate over byte offsets `0, 2, 4, ...`
below `min(|A|, |B|)`, reading an int16 at each offset from both buffers and
writing the clamped average at the same offset of the output.  (For an odd
`min` length the JS code throws a `RangeError` on the final out-of-bounds
write; buffers of interleaved int16 samples always have even length, and the
model simply stops when fewer than two bytes remain on either side.) -/
def mixInt16Stereo : Buf → Buf → Buf
  | a0 :: a1 :: as, b0 :: b1 :: bs =>
      int16ToBytes (mixSample (toInt16LE a0 a1) (toInt16LE b0 b1)) ++
        mixInt16Stereo as bs
  | _, _ => []

/-- Decode a byte buffer into its int16 samples (reads at offsets 0, 2, ...). -/
def bytesToSamples : Buf → List Int
  | a0 :: a1 :: rest => toInt16LE a0 a1 :: bytesToSamples rest
  | _ => []

/-- Encode a list of int16 samples as little-endian bytes. -/
def samplesToBytes : List Int → Buf
  | [] => []
  | s :: rest => int16ToBytes s ++ samplesToBytes rest

/-- `Buffer.allocUnsafe(n); fill(0)`: `n` zero bytes. -/
def silence (n : Nat) : Buf := List.replicate n 0

/-- `pumpMix()`: drain both frame queues, returning the final loopback queue,
the final mic queue and the list of chunks written to the WAV writer, in
order.  Each loop iteration mirrors the source: a lone loopback (resp. mic)
head is mixed against same-length silence and popped; equal-length heads are
mixed whole and both popped; unequal heads are mixed over the common prefix of
byte length `min`, the longer head is replaced in place by its suffix and the
shorter one is popped. -/
def pumpMix : List Buf → List Buf → List Buf × List Buf × List Buf
  | [], [] => ([], [], [])
  | a :: ql, [] =>
      let mixed := mixInt16Stereo a (silence a.length)
      let r := pumpMix ql []
      (r.1, r.2.1, mixed :: r.2.2)
  | [], b :: qm =>
      let mixed := mixInt16Stereo (silence b.length) b
      let r := pumpMix [] qm
      (r.1, r.2.1, mixed :: r.2.2)
  | a :: ql, b :: qm =>
      if a.length = b.length then
        let r := pumpMix ql qm
        (r.1, r.2.1, mixInt16Stereo a b :: r.2.2)
      else
        let minLen := min a.length b.length
        let mixed := mixInt16Stereo (a.take minLen) (b.take minLen)
        let ql2 := if minLen < a.length then a.drop minLen :: ql else ql
        let qm2 := if minLen < b.length then b.drop minLen :: qm else qm
        let r := pumpMix ql2 qm2
        (r.1, r.2.1, mixed :: r.2.2)
termination_by ql qm => ql.length + qm.length
decreasing_by
  all_goals simp only [List.length_cons, List.length_drop]
  all_goals try omega
  all_goals simp only [Nat.min_def]
  all_goals split <;> split <;> split <;>
    (try simp only [List.length_cons, List.length_drop]) <;> omega

/-- `onLoop` callback: push the delivered PCM frame onto the loopback queue,
then run `pumpMix`.  The state is (loopback queue, mic queue); the written
chunks are returned alongside the final queues. -/
def onLoop (pcm : Buf) (ql qm : List Buf) : List Buf × List Buf × List Buf :=
  pumpMix (ql ++ [pcm]) qm

/-- `onMic` callback for a stereo mic: push the frame onto the mic queue, then
run `pumpMix`.  (The mono case first duplicates each sample, see
`monoToStereo`.) -/
def onMic (pcm : Buf) (ql qm : List Buf) : List Buf × List Buf × List Buf :=
  pumpMix ql (qm ++ [pcm])

/-- Mono-to-stereo duplication in `onMic`: each int16 sample is written twice.
Modelled at the byte level: every two bytes are emitted twice. -/
def monoToStereo : Buf → Buf
  | a0 :: a1 :: rest => a0 :: a1 :: a0 :: a1 :: monoToStereo rest
  | _ => []

/-- The module-level mutable state of the mixed recorder
(`started`, `wavWriter`, the two RtAudio streams, `qLoop`, `qMic`).
Booleans record whether each resource is currently open/active. -/
structure RecorderState where
  started : Bool
  writerOpen : Bool
  loopStreamOpen : Bool
  micStreamOpen : Bool
  streamsRunning : Bool
  qLoop : List Buf
  qMic : List Buf
deriving DecidableEq, Repr

/-- The idle module state: nothing open, queues empty. -/
def idleRecorder : RecorderState :=
  ⟨false, false, false, false, false, [], []⟩

/-- Failure injection for `start()`: which fallible step of the open sequence
throws (RtAudio construction, `openStream` on either instance, or
`rtLoopback.start()`/`rtMic.start()`). -/
structure StartEnv where
  failInit : Bool
  failOpenLoop : Bool
  failOpenMic : Bool
  failStart : Bool
deriving DecidableEq, Repr

/-- `start()` for the mixed recorder: the guard `if (started) throw`, then the
open sequence in source order — create the `wav.FileWriter`, open the loopback
stream, open the mic stream (both inside one `try` whose `catch` only
rethrows), then start both streams (whose `catch` closes both streams and
rethrows).  Returns the thrown error message (if any) and the resulting
module state. -/
def start (s : RecorderState) (env : StartEnv) : Option String × RecorderState :=
  if s.started then (some "Recording already in progress", s)
  else if env.failInit then
    (some "Failed to initialize RtAudio (WASAPI)", s)
  else
    let s1 : RecorderState := { s with writerOpen := true }
    if env.failOpenLoop then
      (some "Failed to open RtAudio WASAPI loopback stream", s1)
    else
      let s2 : RecorderState := { s1 with loopStreamOpen := true }
      if env.failOpenMic then
        (some "Failed to open RtAudio WASAPI loopback stream", s2)
      else
        let s3 : RecorderState := { s2 with micStreamOpen := true }
        if env.failStart then
          (some "Failed to start RtAudio stream",
            { s3 with loopStreamOpen := false, micStreamOpen := false })
        else
          (none, { s3 with started := true, streamsRunning := true })

/-- `stop()` for the mixed recorder: `if (!started) return ok:false` without
touching anything; otherwise stop/close both streams, end the writer and
reset every module variable. -/
def stop (s : RecorderState) : Bool × RecorderState :=
  if s.started = false then (false, s)
  else (true, idleRecorder)

/-- Module state of the loopback-only recorder (`lbStarted`, `lbWriter`,
`lbRt`). -/
structure LbState where
  lbStarted : Bool
  lbWriterOpen : Bool
  lbStreamOpen : Bool
deriving DecidableEq, Repr

/-- `startLoopback()`: guard on `lbStarted` first, then the open sequence. -/
def startLoopback (s : LbState) (failOpen : Bool) : Option String × LbState :=
  if s.lbStarted then (some "Loopback recording already in progress", s)
  else
    let s1 : LbState := { s with lbWriterOpen := true }
    if failOpen then (some "StreamOpenFailed", s1)
    else (none, { s1 with lbStreamOpen := true, lbStarted := true })

/-- `stopLoopback()`: `if (!lbStarted) return ok:false`; otherwise close and
reset. -/
def stopLoopback (s : LbState) : Bool × LbState :=
  if s.lbStarted = false then (false, s)
  else (true, ⟨false, false, false⟩)

/-- Module state of the mic-only recorder (`micStarted`, `micWriter`,
`micRt`). -/
structure MicOnlyState where
  micStarted : Bool
  micWriterOpen : Bool
  micStreamOpen : Bool
deriving DecidableEq, Repr

/-- `startMic()`: guard on `micStarted` first, then the open sequence. -/
def startMic (s : MicOnlyState) (failOpen : Bool) : Option String × MicOnlyState :=
  if s.micStarted then (some "Mic recording already in progress", s)
  else
    let s1 : MicOnlyState := { s with micWriterOpen := true }
    if failOpen then (some "StreamOpenFailed", s1)
    else (none, { s1 with micStreamOpen := true, micStarted := true })

/-- `stopMic()`: `if (!micStarted) return ok:false`; otherwise close and
reset. -/
def stopMic (s : MicOnlyState) : Bool × MicOnlyState :=
  if s.micStarted = false then (false, s)
  else (true, ⟨false, false, false⟩)

/-- Does `s` start with `pat`? -/
def charsStartWith : List Char → List Char → Bool
  | [], _ => true
  | _ :: _, [] => false
  | p :: ps, c :: cs => p = c && charsStartWith ps cs

/-- Does `pat` occur contiguously inside `s`? -/
def charsContain (pat : List Char) : List Char → Bool
  | [] => pat.isEmpty
  | c :: cs => charsStartWith pat (c :: cs) || charsContain pat cs

/-- Case-insensitive substring test, modelling JS `line.match(/pat/i)` for a
literal pattern. -/
def containsCI (line pat : String) : Bool :=
  charsContain (pat.toList.map Char.toLower) (line.toList.map Char.toLower)

/-- First match of `/"([^"]+)"/`: the first maximal non-empty run of
non-quote characters that is enclosed in double quotes, scanning left to
right. -/
def firstQuoted : List Char → Option (List Char)
  | [] => none
  | c :: rest =>
      if c = '"' then
        let seg := rest.takeWhile (fun d => decide (d ≠ '"'))
        let rem := rest.dropWhile (fun d => decide (d ≠ '"'))
        match rem with
        | '"' :: _ => if seg.isEmpty then firstQuoted rest else some seg
        | _ => firstQuoted rest
      else firstQuoted rest

/-- The line loop of `parseWasapiDevices`: track the current mode
(capture / render / unset, as `some true` / `some false` / `none`), and
append each quoted device name to the bucket of the current mode. -/
def parseWasapiLoop :
    List String → Option Bool → List String → List String →
      List String × List String
  | [], _, capture, render => (capture, render)
  | line :: rest, mode, capture, render =>
      let mode1 :=
        if containsCI line "Capture devices" then some true
        else if containsCI line "Render devices" then some false
        else mode
      match firstQuoted line.toList, mode1 with
      | some nameChars, some isCap =>
          if isCap then
            parseWasapiLoop rest mode1 (capture ++ [String.mk nameChars]) render
          else
            parseWasapiLoop rest mode1 capture (render ++ [String.mk nameChars])
      | _, _ => parseWasapiLoop rest mode1 capture render

/-- `parseWasapiDevices(stderr)` on its list of lines: run the line loop and
then apply the fallback — `unshift` of the string `default` onto either
bucket that does not already contain it.  Returns `(capture, render)`. -/
def parseWasapiDevices (lines : List String) : List String × List String :=
  let parsed := parseWasapiLoop lines none [] []
  let capture :=
    if parsed.1.contains "default" then parsed.1 else "default" :: parsed.1
  let render :=
    if parsed.2.contains "default" then parsed.2 else "default" :: parsed.2
  (capture, render)

/-- Unfolding equation: both queues empty. -/
theorem pumpMix_nil_nil : pumpMix [] [] = ([], [], []) := by
  rw [pumpMix]

/-- Unfolding equation: only the loopback queue has a head frame. -/
theorem pumpMix_cons_nil (a : Buf) (ql : List Buf) :
    pumpMix (a :: ql) [] =
      ((pumpMix ql []).1, (pumpMix ql []).2.1,
        mixInt16Stereo a (silence a.length) :: (pumpMix ql []).2.2) := by
  rw [pumpMix]

/-- Unfolding equation: only the mic queue has a head frame. -/
theorem pumpMix_nil_cons (b : Buf) (qm : List Buf) :
    pumpMix [] (b :: qm) =
      ((pumpMix [] qm).1, (pumpMix [] qm).2.1,
        mixInt16Stereo (silence b.length) b :: (pumpMix [] qm).2.2) := by
  rw [pumpMix]

/-- Unfolding equation: equal-length heads are mixed whole and both popped. -/
theorem pumpMix_cons_cons_eq (a b : Buf) (ql qm : List Buf)
    (h : a.length = b.length) :
    pumpMix (a :: ql) (b :: qm) =
      ((pumpMix ql qm).1, (pumpMix ql qm).2.1,
        mixInt16Stereo a b :: (pumpMix ql qm).2.2) := by
  rw [pumpMix]
  simp [h]

/-- Unfolding equation: unequal-length heads; the common prefix is mixed, the
longer head is replaced by its suffix, the shorter head popped. -/
theorem pumpMix_cons_cons_ne (a b : Buf) (ql qm : List Buf)
    (h : ¬ a.length = b.length) :
    pumpMix (a :: ql) (b :: qm) =
      ((pumpMix
          (if min a.length b.length < a.length then
            a.drop (min a.length b.length) :: ql else ql)
          (if min a.length b.length < b.length then
            b.drop (min a.length b.length) :: qm else qm)).1,
        (pumpMix
          (if min a.length b.length < a.length then
            a.drop (min a.length b.length) :: ql else ql)
          (if min a.length b.length < b.length then
            b.drop (min a.length b.length) :: qm else qm)).2.1,
        mixInt16Stereo (a.take (min a.length b.length))
            (b.take (min a.length b.length)) ::
          (pumpMix
            (if min a.length b.length < a.length then
              a.drop (min a.length b.length) :: ql else ql)
            (if min a.length b.length < b.length then
              b.drop (min a.length b.length) :: qm else qm)).2.2) := by
  rw [pumpMix]
  simp [h]

/-- For inputs already inside the signed 32-bit range, `ToInt32` is the
identity. -/
theorem toInt32_eq_self (x : Int) (h1 : -2147483648 ≤ x) (h2 : x < 2147483648) :
    toInt32 x = x := by
  unfold toInt32
  omega

/-- The clamped value always lies in the int16 range. -/
theorem clamp16_mem (s : Int) : -32768 ≤ clamp16 s ∧ clamp16 s ≤ 32767 := by
  unfold clamp16
  split <;> [omega; split <;> omega]

/-- A clamped average always lies in the int16 range. -/
theorem mixSample_mem (a b : Int) : -32768 ≤ mixSample a b ∧ mixSample a b ≤ 32767 :=
  clamp16_mem _

/-- Reading back two little-endian bytes always yields an int16-range value. -/
theorem toInt16LE_mem (lo hi : Nat) (hlo : lo < 256) (hhi : hi < 256) :
    -32768 ≤ toInt16LE lo hi ∧ toInt16LE lo hi ≤ 32767 := by
  simp only [toInt16LE]
  split <;> omega

/-- `writeInt16LE` then `readInt16LE` round-trips for int16-range values, and
prepends exactly the two written bytes. -/
theorem bytesToSamples_int16ToBytes (s : Int) (h1 : -32768 ≤ s) (h2 : s ≤ 32767)
    (rest : Buf) :
    bytesToSamples (int16ToBytes s ++ rest) = s :: bytesToSamples rest := by
  have h : int16ToBytes s ++ rest =
      ((s % 65536).toNat % 256) :: ((s % 65536).toNat / 256) :: rest := rfl
  rw [h, bytesToSamples]
  congr 1
  simp only [toInt16LE]
  split <;> omega

/-- The two bytes written by `writeInt16LE` are valid bytes. -/
theorem int16ToBytes_valid (s : Int) : ValidBuf (int16ToBytes s) := by
  unfold int16ToBytes ValidBuf
  intro x hx
  simp only [List.mem_cons, List.not_mem_nil, or_false] at hx
  have hlt : (s % 65536).toNat < 65536 := by omega
  rcases hx with h | h <;> omega

/-- For int16-range operands the sum stays far inside 32 bits, so the JS
average is plain floor division of the sum by two, and it stays in range:
the two clamp branches never fire. -/
theorem mixSample_noclamp (a b : Int)
    (ha1 : -32768 ≤ a) (ha2 : a ≤ 32767) (hb1 : -32768 ≤ b) (hb2 : b ≤ 32767) :
    mixSample a b = jsShr1 (a + b) ∧
      jsShr1 (a + b) = (a + b) / 2 ∧
      -32768 ≤ jsShr1 (a + b) ∧ jsShr1 (a + b) ≤ 32767 := by
  have hts : toInt32 (a + b) = a + b := toInt32_eq_self _ (by omega) (by omega)
  have hshr : jsShr1 (a + b) = (a + b) / 2 := by
    unfold jsShr1
    rw [hts, Int.fdiv_eq_ediv _ (by decide)]
  have hrange : -32768 ≤ (a + b) / 2 ∧ (a + b) / 2 ≤ 32767 := by omega
  refine ⟨?_, hshr, by omega, by omega⟩
  unfold mixSample clamp16
  split <;> [omega; split <;> [omega; rfl]]

/-- The number of decoded samples is the byte length divided by two. -/
theorem bytesToSamples_length (A : Buf) :
    (bytesToSamples A).length = A.length / 2 := by
  induction A using bytesToSamples.induct with
  | case1 a0 a1 rest ih =>
      simp only [bytesToSamples, List.length_cons, ih]
      omega
  | case2 A h =>
      rcases A with _ | ⟨a0, _ | ⟨a1, as⟩⟩
      · simp [bytesToSamples]
      · simp [bytesToSamples]
      · exact (h _ _ _ rfl).elim

/-- Sample-level reading of the mixing loop: the decoded output samples are
the pairwise clamped averages of the decoded input samples. -/
theorem bytesToSamples_mixInt16Stereo (A B : Buf) :
    bytesToSamples (mixInt16Stereo A B) =
      List.zipWith mixSample (bytesToSamples A) (bytesToSamples B) := by
  induction A, B using mixInt16Stereo.induct with
  | case1 a0 a1 as b0 b1 bs ih =>
      rw [mixInt16Stereo]
      rw [bytesToSamples_int16ToBytes _ (mixSample_mem _ _).1 (mixSample_mem _ _).2]
      simp only [bytesToSamples, List.zipWith_cons_cons]
      rw [ih]
  | case2 A B h =>
      rcases A with _ | ⟨a0, _ | ⟨a1, as⟩⟩ <;> rcases B with _ | ⟨b0, _ | ⟨b1, bs⟩⟩ <;>
        first
          | exact (h _ _ _ _ _ _ rfl rfl).elim
          | simp [mixInt16Stereo, bytesToSamples]

/-- The mixing loop is symmetric in its two buffers: each written sample is
`clamp16((a + b) >> 1)` and addition commutes. -/
theorem mixInt16Stereo_comm (A B : Buf) :
    mixInt16Stereo A B = mixInt16Stereo B A := by
  induction A, B using mixInt16Stereo.induct with
  | case1 a0 a1 as b0 b1 bs ih =>
      rw [mixInt16Stereo, mixInt16Stereo]
      rw [ih]
      simp only [mixSample, Int.add_comm]
  | case2 A B h =>
      rcases A with _ | ⟨a0, _ | ⟨a1, as⟩⟩ <;> rcases B with _ | ⟨b0, _ | ⟨b1, bs⟩⟩ <;>
        first
          | exact (h _ _ _ _ _ _ rfl rfl).elim
          | simp [mixInt16Stereo]

/-- Mixing a valid buffer against same-length silence halves every sample
(averaging with zero): the output is the input's samples arithmetic-shifted
right by one, re-encoded. -/
theorem mixInt16Stereo_silence_right (A : Buf) :
    ValidBuf A →
      mixInt16Stereo A (silence A.length) =
        samplesToBytes ((bytesToSamples A).map (fun s => jsShr1 s)) := by
  induction A using bytesToSamples.induct with
  | case1 a0 a1 rest ih =>
      intro hv
      have hrange := toInt16LE_mem a0 a1 (hv a0 (by simp)) (hv a1 (by simp))
      have hs : silence ((a0 :: a1 :: rest).length) = 0 :: 0 :: silence rest.length := by
        simp [silence, List.replicate]
      rw [hs, mixInt16Stereo]
      have h00 : toInt16LE 0 0 = 0 := by decide
      rw [h00]
      have hhead : mixSample (toInt16LE a0 a1) 0 = jsShr1 (toInt16LE a0 a1) := by
        have h := mixSample_noclamp (toInt16LE a0 a1) 0 hrange.1 hrange.2
          (by decide) (by decide)
        rw [h.1, Int.add_zero]
      rw [hhead]
      rw [ih (fun x hx => hv x (by simp [hx]))]
      rw [bytesToSamples]
      simp only [List.map_cons]
      rw [samplesToBytes]
  | case2 A h =>
      intro _
      rcases A with _ | ⟨a0, _ | ⟨a1, as⟩⟩
      · simp [silence, mixInt16Stereo, bytesToSamples, samplesToBytes]
      · simp [silence, mixInt16Stereo, bytesToSamples, samplesToBytes, List.replicate]
      · exact (h _ _ _ rfl).elim

/-- Symmetric version: silence on the loopback side. -/
theorem mixInt16Stereo_silence_left (A : Buf) (hv : ValidBuf A) :
    mixInt16Stereo (silence A.length) A =
      samplesToBytes ((bytesToSamples A).map (fun s => jsShr1 s)) := by
  rw [mixInt16Stereo_comm, mixInt16Stereo_silence_right A hv]

/-- The mixer consumes samples pairwise: its output byte length is twice the
number of complete sample pairs available on both sides. -/
theorem mixInt16Stereo_length (A B : Buf) :
    (mixInt16Stereo A B).length = 2 * (min A.length B.length / 2) := by
  induction A, B using mixInt16Stereo.induct with
  | case1 a0 a1 as b0 b1 bs ih =>
      rw [mixInt16Stereo]
      simp only [List.length_append, List.length_cons, ih, Nat.min_def,
        int16ToBytes, List.length_nil]
      split <;> split <;> omega
  | case2 A B h =>
      rcases A with _ | ⟨a0, _ | ⟨a1, as⟩⟩ <;> rcases B with _ | ⟨b0, _ | ⟨b1, bs⟩⟩ <;>
        first
          | exact (h _ _ _ _ _ _ rfl rfl).elim
          | simp [mixInt16Stereo, Nat.min_def]

/-- Mixing splits across sample-aligned concatenations: mixing `X1 ++ X2`
against `Y1 ++ Y2` equals mixing the parts when `X1` and `Y1` have the same
even byte length. -/
theorem mixInt16Stereo_append (X2 Y2 : Buf) (X1 Y1 : Buf) :
    X1.length = Y1.length → 2 ∣ X1.length →
      mixInt16Stereo (X1 ++ X2) (Y1 ++ Y2) =
        mixInt16Stereo X1 Y1 ++ mixInt16Stereo X2 Y2 := by
  induction X1, Y1 using mixInt16Stereo.induct with
  | case1 a0 a1 as b0 b1 bs ih =>
      intro hlen heven
      simp only [List.cons_append]
      rw [mixInt16Stereo, mixInt16Stereo]
      rw [ih (by simpa using hlen) (by simp at heven; omega)]
      simp [List.append_assoc]
  | case2 A B h =>
      intro hlen heven
      rcases A with _ | ⟨a0, _ | ⟨a1, as⟩⟩ <;> rcases B with _ | ⟨b0, _ | ⟨b1, bs⟩⟩ <;>
        first
          | exact (h _ _ _ _ _ _ rfl rfl).elim
          | simp_all [mixInt16Stereo]

/-- The drain loop of `pumpMix` runs until both queues are exhausted: the
final queues are always empty. -/
theorem pumpMix_queues_empty (ql qm : List Buf) :
    (pumpMix ql qm).1 = [] ∧ (pumpMix ql qm).2.1 = [] := by
  induction ql, qm using pumpMix.induct with
  | case1 => rw [pumpMix_nil_nil]; exact ⟨rfl, rfl⟩
  | case2 a ql ih => rw [pumpMix_cons_nil]; exact ih
  | case3 b qm ih => rw [pumpMix_nil_cons]; exact ih
  | case4 a ql b qm h ih => rw [pumpMix_cons_cons_eq _ _ _ _ h]; exact ih
  | case5 a ql b qm h m q1 q2 ih =>
      rw [pumpMix_cons_cons_ne _ _ _ _ h]
      exact ih

/-- C1: For every pair of equal-length buffers of interleaved signed 16-bit
little-endian samples `A` and `B`, `mixInt16Stereo` produces at sample index
`i` the value `clamp16((a_i + b_i) >> 1)`: the sum arithmetic-shifted right
by one and clamped to `[-32768, 32767]`. -/
theorem C1_mix_is_clamped_shifted_sum (A B : Buf) (hAB : A.length = B.length) :
    bytesToSamples (mixInt16Stereo A B) =
      List.zipWith (fun a b => clamp16 (jsShr1 (a + b)))
        (bytesToSamples A) (bytesToSamples B) ∧
    ∀ i, i < (bytesToSamples A).length →
      (bytesToSamples (mixInt16Stereo A B)).getD i 0 =
        clamp16 (jsShr1
          ((bytesToSamples A).getD i 0 + (bytesToSamples B).getD i 0)) := by
  have hz := bytesToSamples_mixInt16Stereo A B
  refine ⟨hz, ?_⟩
  intro i hi
  have hlB : (bytesToSamples B).length = (bytesToSamples A).length := by
    rw [bytesToSamples_length, bytesToSamples_length, hAB]
  have h1 : i < (List.zipWith mixSample
      (bytesToSamples A) (bytesToSamples B)).length := by
    rw [List.length_zipWith]
    omega
  rw [hz, List.getD_eq_getElem _ _ h1, List.getD_eq_getElem _ _ hi,
    List.getD_eq_getElem _ _ (by omega)]
  exact List.getElem_zipWith

/-- Witness for C1 at concrete buffers of samples 2, -5 and 6, -6. -/
theorem C1_witness :
    ([2, 0, 251, 255] : Buf).length = ([6, 0, 250, 255] : Buf).length ∧
      bytesToSamples (mixInt16Stereo [2, 0, 251, 255] [6, 0, 250, 255]) =
        List.zipWith (fun a b => clamp16 (jsShr1 (a + b)))
          (bytesToSamples [2, 0, 251, 255]) (bytesToSamples [6, 0, 250, 255]) :=
  ⟨by decide, (C1_mix_is_clamped_shifted_sum [2, 0, 251, 255] [6, 0, 250, 255]
    (by decide)).1⟩

/-- C2: with a non-empty frame at the head of exactly one queue and the other
queue empty, the pump mixes the frame against same-length synthesized silence
and emits the frame with every sample arithmetic-shifted right by one. -/
theorem C2_silence_pad_halves (A : Buf) (hv : ValidBuf A) (hne : A ≠ [])
    (ql qm : List Buf) :
    (pumpMix (A :: ql) []).2.2 =
        samplesToBytes ((bytesToSamples A).map (fun s => jsShr1 s)) ::
          (pumpMix ql []).2.2 ∧
    (pumpMix [] (A :: qm)).2.2 =
        samplesToBytes ((bytesToSamples A).map (fun s => jsShr1 s)) ::
          (pumpMix [] qm).2.2 := by
  constructor
  · rw [pumpMix_cons_nil]
    rw [mixInt16Stereo_silence_right A hv]
  · rw [pumpMix_nil_cons]
    rw [mixInt16Stereo_silence_left A hv]

/-- Witness for C2 at the frame with samples 100, -7. -/
theorem C2_witness :
    ValidBuf [100, 0, 249, 255] ∧ ([100, 0, 249, 255] : Buf) ≠ [] ∧
      (pumpMix [[100, 0, 249, 255]] []).2.2 =
        samplesToBytes ((bytesToSamples [100, 0, 249, 255]).map
          (fun s => jsShr1 s)) :: (pumpMix [] []).2.2 :=
  ⟨by decide, by decide,
    (C2_silence_pad_halves [100, 0, 249, 255] (by decide) (by decide) [] []).1⟩

/-- C3: with unequal-length head frames, one pump iteration emits exactly the
mix of the common prefix of byte length `min(|A|, |B|)` (the emitted chunk has
exactly `min` bytes, so no byte is mixed twice), replaces the longer head with
its un-mixed suffix, and pops the shorter head entirely. -/
theorem C3_unequal_heads_prefix_mix (A B : Buf) (ql qm : List Buf)
    (hne : A.length ≠ B.length) (hA : 2 ∣ A.length) (hB : 2 ∣ B.length) :
    (A.length < B.length →
      pumpMix (A :: ql) (B :: qm) =
        ((pumpMix ql (B.drop A.length :: qm)).1,
          (pumpMix ql (B.drop A.length :: qm)).2.1,
          mixInt16Stereo A (B.take A.length) ::
            (pumpMix ql (B.drop A.length :: qm)).2.2)) ∧
    (B.length < A.length →
      pumpMix (A :: ql) (B :: qm) =
        ((pumpMix (A.drop B.length :: ql) qm).1,
          (pumpMix (A.drop B.length :: ql) qm).2.1,
          mixInt16Stereo (A.take B.length) B ::
            (pumpMix (A.drop B.length :: ql) qm).2.2)) ∧
    (mixInt16Stereo (A.take (min A.length B.length))
        (B.take (min A.length B.length))).length =
      min A.length B.length := by
  refine ⟨?_, ?_, ?_⟩
  · intro hlt
    rw [pumpMix_cons_cons_ne _ _ _ _ hne]
    have hmin : min A.length B.length = A.length :=
      Nat.min_eq_left (Nat.le_of_lt hlt)
    rw [hmin]
    simp [hlt, List.take_length]
  · intro hlt
    rw [pumpMix_cons_cons_ne _ _ _ _ hne]
    have hmin : min A.length B.length = B.length :=
      Nat.min_eq_right (Nat.le_of_lt hlt)
    rw [hmin]
    simp [hlt, List.take_length]
  · rw [mixInt16Stereo_length]
    have hmA : min A.length B.length ≤ A.length := Nat.min_le_left _ _
    have hmB : min A.length B.length ≤ B.length := Nat.min_le_right _ _
    rw [List.length_take, List.length_take]
    rcases hA with ⟨k, hk⟩
    rcases hB with ⟨l, hl⟩
    rw [Nat.min_def] at *
    split at hmA <;> split <;> omega

/-- Witness for C3 at a 4-byte loopback head and an 8-byte mic head. -/
theorem C3_witness :
    (([1, 0, 2, 0] : Buf).length ≠ ([5, 0, 6, 0, 7, 0, 8, 0] : Buf).length) ∧
      (([1, 0, 2, 0] : Buf).length < ([5, 0, 6, 0, 7, 0, 8, 0] : Buf).length →
        pumpMix [[1, 0, 2, 0]] [[5, 0, 6, 0, 7, 0, 8, 0]] =
          ((pumpMix [] ([5, 0, 6, 0, 7, 0, 8, 0].drop 4 :: [])).1,
            (pumpMix [] ([5, 0, 6, 0, 7, 0, 8, 0].drop 4 :: [])).2.1,
            mixInt16Stereo [1, 0, 2, 0] ([5, 0, 6, 0, 7, 0, 8, 0].take 4) ::
              (pumpMix [] ([5, 0, 6, 0, 7, 0, 8, 0].drop 4 :: [])).2.2)) := by
  have h := C3_unequal_heads_prefix_mix [1, 0, 2, 0] [5, 0, 6, 0, 7, 0, 8, 0]
    [] [] (by decide) (by decide) (by decide)
  have hlen : (([1, 0, 2, 0] : Buf)).length = 4 := by decide
  exact ⟨by decide, by
    intro hlt
    have := h.1 hlt
    rw [hlen] at this
    exact this⟩

/-- C4: draining one 4-sample (8-byte) loopback frame against two sequential
2-sample (4-byte) mic frames emits the same concatenated byte output as
draining it against the single 4-sample frame made by concatenating the two
(associativity of the remainder-carry rule). -/
theorem C4_remainder_carry_assoc (A B1 B2 : Buf)
    (hA : A.length = 8) (hB1 : B1.length = 4) (hB2 : B2.length = 4) :
    ((pumpMix [A] [B1, B2]).2.2).flatten = ((pumpMix [A] [B1 ++ B2]).2.2).flatten := by
  have hne : ¬ A.length = (B1 : Buf).length := by omega
  have hmin : min A.length B1.length = 4 := by omega
  rw [pumpMix_cons_cons_ne _ _ _ _ hne, hmin,
    if_pos (show 4 < A.length by omega), if_neg (show ¬ 4 < B1.length by omega)]
  have hdl : (A.drop 4).length = (B2 : Buf).length := by
    rw [List.length_drop, hA, hB2]
  rw [pumpMix_cons_cons_eq _ _ _ _ hdl, pumpMix_nil_nil]
  have hne2 : A.length = (B1 ++ B2 : Buf).length := by
    rw [List.length_append, hA, hB1, hB2]
  rw [pumpMix_cons_cons_eq _ _ _ _ hne2, pumpMix_nil_nil]
  simp only [List.flatten]
  have hsplit : mixInt16Stereo A (B1 ++ B2) =
      mixInt16Stereo (A.take 4) B1 ++ mixInt16Stereo (A.drop 4) B2 := by
    have hAeq : A = A.take 4 ++ A.drop 4 := (List.take_append_drop 4 A).symm
    calc mixInt16Stereo A (B1 ++ B2)
        = mixInt16Stereo (A.take 4 ++ A.drop 4) (B1 ++ B2) := by rw [← hAeq]
      _ = mixInt16Stereo (A.take 4) B1 ++ mixInt16Stereo (A.drop 4) B2 := by
          apply mixInt16Stereo_append
          · rw [List.length_take, hA, hB1]
            omega
          · rw [List.length_take, hA]
            omega
  have hB1take : B1.take 4 = B1 := by rw [← hB1, List.take_length]
  rw [hB1take] at *
  simp [hsplit]

/-- Witness for C4 at concrete frames. -/
theorem C4_witness :
    (([1, 0, 2, 0, 3, 0, 4, 0] : Buf).length = 8 ∧
      ([10, 0, 20, 0] : Buf).length = 4 ∧ ([30, 0, 40, 0] : Buf).length = 4) ∧
      ((pumpMix [[1, 0, 2, 0, 3, 0, 4, 0]] [[10, 0, 20, 0], [30, 0, 40, 0]]).2.2).flatten =
        ((pumpMix [[1, 0, 2, 0, 3, 0, 4, 0]] [[10, 0, 20, 0] ++ [30, 0, 40, 0]]).2.2).flatten :=
  ⟨⟨by decide, by decide, by decide⟩,
    C4_remainder_carry_assoc [1, 0, 2, 0, 3, 0, 4, 0] [10, 0, 20, 0] [30, 0, 40, 0]
      (by decide) (by decide) (by decide)⟩

/-- C9: for int16-range operands the averaged value `(a + b) >> 1` is already
inside `[-32768, 32767]`, so both clamp branches of `mixInt16Stereo` are
unreachable and the written sample is exactly `(a + b) >> 1`. -/
theorem C9_clamp_branches_unreachable (a b : Int)
    (ha1 : -32768 ≤ a) (ha2 : a ≤ 32767) (hb1 : -32768 ≤ b) (hb2 : b ≤ 32767) :
    -32768 ≤ jsShr1 (a + b) ∧ jsShr1 (a + b) ≤ 32767 ∧
      mixSample a b = jsShr1 (a + b) := by
  have h := mixSample_noclamp a b ha1 ha2 hb1 hb2
  exact ⟨h.2.2.1, h.2.2.2, h.1⟩

/-- Witness for C9 at the extreme pair (-32768, 32767). -/
theorem C9_witness :
    (-32768 ≤ (-32768 : Int) ∧ (-32768 : Int) ≤ 32767 ∧
      -32768 ≤ (32767 : Int) ∧ (32767 : Int) ≤ 32767) ∧
      (-32768 ≤ jsShr1 ((-32768) + 32767) ∧ jsShr1 ((-32768) + 32767) ≤ 32767 ∧
        mixSample (-32768) 32767 = jsShr1 ((-32768) + 32767)) :=
  ⟨⟨by decide, by decide, by decide, by decide⟩,
    C9_clamp_branches_unreachable (-32768) 32767
      (by decide) (by decide) (by decide) (by decide)⟩

/-- C10: whenever `pumpMix` returns both queues are empty, and since each
frame callback pushes its frame and then pumps, both queues are empty after
every callback; termination of the drain loop is established by `pumpMix`
being a total function. -/
theorem C10_pump_drains_queues (ql qm : List Buf) (pcm : Buf) :
    (pumpMix ql qm).1 = [] ∧ (pumpMix ql qm).2.1 = [] ∧
    (onLoop pcm ql qm).1 = [] ∧ (onLoop pcm ql qm).2.1 = [] ∧
    (onMic pcm ql qm).1 = [] ∧ (onMic pcm ql qm).2.1 = [] := by
  have h1 := pumpMix_queues_empty ql qm
  have h2 := pumpMix_queues_empty (ql ++ [pcm]) qm
  have h3 := pumpMix_queues_empty ql (qm ++ [pcm])
  exact ⟨h1.1, h1.2, h2.1, h2.2, h3.1, h3.2⟩

/-- C5 counterexample: when opening the mic stream fails after the loopback
stream was opened, `start` propagates the error while both the WAV writer and
the loopback stream are still open — the claimed close-everything teardown
does not happen. -/
theorem C5_counterexample :
    (start idleRecorder ⟨false, false, true, false⟩).1 =
        some "Failed to open RtAudio WASAPI loopback stream" ∧
      (start idleRecorder ⟨false, false, true, false⟩).2.writerOpen = true ∧
      (start idleRecorder ⟨false, false, true, false⟩).2.loopStreamOpen = true := by
  decide

/-- C5 (amended): on a failed start the error always propagates, but teardown
is partial — only the stream-start failure path closes resources, and it
closes just the two RtAudio streams: the WAV writer stays open on every
failure path after its creation, and an `openStream` failure leaves the
already-opened loopback stream open as well. -/
theorem C5_partial_teardown (s : RecorderState) (env : StartEnv)
    (h : s.started = false) :
    (env.failInit = true →
      start s env = (some "Failed to initialize RtAudio (WASAPI)", s)) ∧
    (env.failInit = false → env.failOpenLoop = true →
      start s env = (some "Failed to open RtAudio WASAPI loopback stream",
        { s with writerOpen := true })) ∧
    (env.failInit = false → env.failOpenLoop = false → env.failOpenMic = true →
      start s env = (some "Failed to open RtAudio WASAPI loopback stream",
        { s with writerOpen := true, loopStreamOpen := true })) ∧
    (env.failInit = false → env.failOpenLoop = false → env.failOpenMic = false →
      env.failStart = true →
      start s env = (some "Failed to start RtAudio stream",
        { s with writerOpen := true, loopStreamOpen := false,
                 micStreamOpen := false })) := by
  refine ⟨?_, ?_, ?_, ?_⟩
  · intro h1
    simp [start, h, h1]
  · intro h1 h2
    simp [start, h, h1, h2]
  · intro h1 h2 h3
    simp [start, h, h1, h2, h3]
  · intro h1 h2 h3 h4
    simp [start, h, h1, h2, h3, h4]

/-- Witness for the amended C5 at the idle state with a stream-start
failure. -/
theorem C5_partial_teardown_witness :
    idleRecorder.started = false ∧
      (StartEnv.mk false false false true).failInit = false ∧
      start idleRecorder ⟨false, false, false, true⟩ =
        (some "Failed to start RtAudio stream",
          { idleRecorder with writerOpen := true, loopStreamOpen := false,
                              micStreamOpen := false }) :=
  ⟨by decide, by decide,
    (C5_partial_teardown idleRecorder ⟨false, false, false, true⟩ rfl).2.2.2
      rfl rfl rfl rfl⟩

/-- C6: for each of the three modes, calling start while that mode is already
active fails with its descriptive "already in progress" error and returns the
module state untouched. -/
theorem C6_start_mutual_exclusion (s : RecorderState) (env : StartEnv)
    (lb : LbState) (lf : Bool) (mi : MicOnlyState) (mf : Bool)
    (hs : s.started = true) (hlb : lb.lbStarted = true)
    (hmi : mi.micStarted = true) :
    start s env = (some "Recording already in progress", s) ∧
    startLoopback lb lf = (some "Loopback recording already in progress", lb) ∧
    startMic mi mf = (some "Mic recording already in progress", mi) := by
  refine ⟨?_, ?_, ?_⟩
  · simp [start, hs]
  · simp [startLoopback, hlb]
  · simp [startMic, hmi]

/-- Witness for C6 at concrete active states of all three modes. -/
theorem C6_witness :
    (RecorderState.mk true true true true true [] []).started = true ∧
      (LbState.mk true true true).lbStarted = true ∧
      (MicOnlyState.mk true true true).micStarted = true ∧
      (start ⟨true, true, true, true, true, [], []⟩ ⟨false, false, false, false⟩ =
          (some "Recording already in progress", ⟨true, true, true, true, true, [], []⟩) ∧
        startLoopback ⟨true, true, true⟩ false =
          (some "Loopback recording already in progress", ⟨true, true, true⟩) ∧
        startMic ⟨true, true, true⟩ false =
          (some "Mic recording already in progress", ⟨true, true, true⟩)) :=
  ⟨by decide, by decide, by decide,
    C6_start_mutual_exclusion ⟨true, true, true, true, true, [], []⟩
      ⟨false, false, false, false⟩ ⟨true, true, true⟩ false ⟨true, true, true⟩
      false rfl rfl rfl⟩

/-- C7: for each mode, stop on an inactive session returns ok = false and
leaves the state untouched; in particular a second stop right after a first
one returns ok = false for every starting state. -/
theorem C7_stop_idempotent (s : RecorderState) (lb : LbState)
    (mi : MicOnlyState) (hs : s.started = false) (hlb : lb.lbStarted = false)
    (hmi : mi.micStarted = false) (t : RecorderState) (tl : LbState)
    (tm : MicOnlyState) :
    stop s = (false, s) ∧ stopLoopback lb = (false, lb) ∧
    stopMic mi = (false, mi) ∧
    stop (stop t).2 = (false, (stop t).2) ∧
    stopLoopback (stopLoopback tl).2 = (false, (stopLoopback tl).2) ∧
    stopMic (stopMic tm).2 = (false, (stopMic tm).2) := by
  refine ⟨?_, ?_, ?_, ?_, ?_, ?_⟩
  · simp [stop, hs]
  · simp [stopLoopback, hlb]
  · simp [stopMic, hmi]
  · by_cases ht : t.started = false <;> simp [stop, ht, idleRecorder]
  · by_cases ht : tl.lbStarted = false <;> simp [stopLoopback, ht]
  · by_cases ht : tm.micStarted = false <;> simp [stopMic, ht]

/-- Witness for C7: stop on the idle state and a double stop from an active
state. -/
theorem C7_witness :
    idleRecorder.started = false ∧
      (stop idleRecorder = (false, idleRecorder) ∧
        stop (stop ⟨true, true, true, true, true, [], []⟩).2 =
          (false, (stop ⟨true, true, true, true, true, [], []⟩).2)) :=
  ⟨by decide,
    ⟨(C7_stop_idempotent idleRecorder ⟨false, false, false⟩ ⟨false, false, false⟩
        rfl rfl rfl ⟨true, true, true, true, true, [], []⟩ ⟨false, false, false⟩
        ⟨false, false, false⟩).1,
      (C7_stop_idempotent idleRecorder ⟨false, false, false⟩ ⟨false, false, false⟩
        rfl rfl rfl ⟨true, true, true, true, true, [], []⟩ ⟨false, false, false⟩
        ⟨false, false, false⟩).2.2.2.1⟩⟩

/-- C8: on every parser input — in particular one where the platform reports
zero render devices — both returned device lists contain the synthetic
`default` entry; the parser is a total function, so listing never throws on
an empty result. -/
theorem C8_default_fallback (lines : List String) :
    "default" ∈ (parseWasapiDevices lines).1 ∧
      "default" ∈ (parseWasapiDevices lines).2 := by
  unfold parseWasapiDevices
  constructor
  · by_cases h : (parseWasapiLoop lines none [] []).1.contains "default"
    · simp only [h, if_true]
      exact List.elem_iff.mp h
    · simp only [h, if_false]
      exact List.mem_cons_self _ _
  · by_cases h : (parseWasapiLoop lines none [] []).2.contains "default"
    · simp only [h, if_true]
      exact List.elem_iff.mp h
    · simp only [h, if_false]
      exact List.mem_cons_self _ _

end AudioRecorder
